import Mathlib

/-!
Shallow embedding of `src/components/ActivityDrawer/index.tsx` (RegionX-Hub).

JavaScript runtime values flowing through the component are modelled as
follows: JSON values by the inductive `Json`; JS strings by Lean `String`
(or by their character sequences `List Char` for the slicing helper, where
the proofs manipulate characters); `undefined`/absent fields by `Option`;
thrown exceptions by `Except`.
-/

/-- Untyped JSON/JS values as handled by the fetch path. -/
inductive Json where
  | null
  | bool (b : Bool)
  | num (n : Int)
  | str (s : String)
  | arr (xs : List Json)
  | obj (fields : List (String × Json))

/-- Property access `j?.k` on a JS value: `undefined` (here `Json.null`) when
the key is missing or the value is not an object. -/
def jget (j : Json) (k : String) : Json :=
  match j with
  | Json.obj fields =>
    match fields.find? (fun p => p.1 == k) with
    | some p => p.2
    | none => Json.null
  | _ => Json.null

/-- `Array.isArray`. -/
def Json.isArr : Json → Bool
  | Json.arr _ => true
  | _ => false

/-- Length of a JSON array (0 for non-arrays); used to count stored records. -/
def jsonArrLen : Json → Nat
  | Json.arr xs => xs.length
  | _ => 0

/-- JS `String.prototype.toLowerCase`, modelled character-wise. -/
def toLowerStr (s : String) : String := ⟨s.data.map Char.toLower⟩

/-- Occurrence of `pat` as a contiguous run of `s`. -/
def hasSub (s pat : List Char) : Bool :=
  if pat.isPrefixOf s then true
  else
    match s with
    | [] => false
    | _ :: t => hasSub t pat

/-- JS `String.prototype.includes` (the pattern is nonempty at every use
site of this file). -/
def containsSub (s pat : String) : Bool := hasSub s.data pat.data

/-- The network value read from the global store: `null`/`undefined`/other
falsy input, a plain string, or an object carrying optional `id`/`name`. -/
inductive NetworkVal where
  | missing
  | str (s : String)
  | obj (id : Option String) (name : Option String)

/-- Embeds `normalizeNetworkName` (index.tsx lines 25-29): falsy input maps to
"polkadot"; a string is lower-cased (the empty string is falsy and also maps
to "polkadot"); an object uses `id ?? name ?? 'polkadot'`, lower-cased. -/
def normalizeNetworkName : NetworkVal → String
  | NetworkVal.missing => "polkadot"
  | NetworkVal.str s => if s = "" then "polkadot" else toLowerStr s
  | NetworkVal.obj id name => toLowerStr ((id.orElse fun _ => name).getD "polkadot")

/-- Endpoint configuration record returned by `coretimeSubscanFor`. -/
structure SubscanCfg where
  api : String
  site : String
  ss58 : Nat
  label : String
deriving DecidableEq

/-- Kusama branch record of `coretimeSubscanFor` (lines 34-39). -/
def kusamaCoretimeCfg : SubscanCfg :=
  ⟨"https://coretime-kusama.api.subscan.io", "https://coretime-kusama.subscan.io", 2,
    "Coretime (Kusama)"⟩

/-- Westend branch record of `coretimeSubscanFor` (lines 41-46). -/
def westendCoretimeCfg : SubscanCfg :=
  ⟨"https://coretime-westend.api.subscan.io", "https://coretime-westend.subscan.io", 42,
    "Coretime (Westend)"⟩

/-- Paseo branch record of `coretimeSubscanFor` (lines 48-53). -/
def paseoCoretimeCfg : SubscanCfg :=
  ⟨"https://coretime-paseo.api.subscan.io", "https://coretime-paseo.subscan.io", 42,
    "Coretime (Paseo)"⟩

/-- Default (primary) branch record of `coretimeSubscanFor` (lines 54-59). -/
def polkadotCoretimeCfg : SubscanCfg :=
  ⟨"https://coretime-polkadot.api.subscan.io", "https://coretime-polkadot.subscan.io", 0,
    "Coretime (Polkadot)"⟩

/-- Embeds `coretimeSubscanFor` (index.tsx lines 31-60). -/
def coretimeSubscanFor (network : NetworkVal) : SubscanCfg :=
  let n := normalizeNetworkName network
  if containsSub n "kusa" then kusamaCoretimeCfg
  else if containsSub n "west" then westendCoretimeCfg
  else if containsSub n "pase" then paseoCoretimeCfg
  else polkadotCoretimeCfg

/-- Resolver as the spec words it, for comparison with `coretimeSubscanFor`:
substring-based matching on the lower-cased identifier, in the fixed priority
kusa → west → pase → default. -/
def resolverSpec (ident : String) : SubscanCfg :=
  if containsSub ident "kusa" then kusamaCoretimeCfg
  else if containsSub ident "west" then westendCoretimeCfg
  else if containsSub ident "pase" then paseoCoretimeCfg
  else polkadotCoretimeCfg

/-- The selected-account value from the wallet store (only its `address`
field is read by this component). -/
structure Account where
  address : String

/-- Modelled from the spec: `encodeAddress` comes from the external
`@polkadot/util-crypto` package and is not part of this repository. Per the
spec it re-encodes a raw account address for a target address-format (SS58)
version and fails on malformed input; it is modelled as a fallible
re-encoding that rejects exactly the malformed raw strings (here: empty or
containing a non-alphanumeric character). -/
def encodeAddressModel (raw : String) (_fmt : Nat) : Except String String :=
  if raw != "" && raw.data.all Char.isAlphanum then Except.ok raw
  else Except.error "Decoding failed"

/-- Embeds the `address` useMemo (index.tsx lines 76-79):
`selectedAccount?.address ? encodeAddress(selectedAccount.address, cfg.ss58) : undefined`.
The body has no try/catch, so an exception thrown by the encoder `enc`
surfaces as `Except.error`; the `undefined` result is `Except.ok none`. -/
def deriveAddress (enc : String → Nat → Except String String)
    (selectedAccount : Option Account) (ss58 : Nat) : Except String (Option String) :=
  match selectedAccount with
  | none => Except.ok none
  | some a => if a.address = "" then Except.ok none else (enc a.address ss58).map some

/-- Outcome of the awaited `fetch`/`res.json()` pair inside the effect:
a response with `res.ok` false (carrying status and body text), a successful
JSON body, or a thrown network/parse exception. -/
inductive FetchOutcome where
  | httpError (status : Nat) (bodyText : String)
  | success (body : Json)
  | thrown

/-- Trace of the state-setter calls and of the outbound request made by one
run of the fetch effect. -/
structure EffectResult where
  setItemsCalls : List Json
  setLoadingCalls : List Bool
  networkCall : Bool

/-- JS truthiness of a string-or-undefined value (`!x` is true for
`undefined` and for the empty string). -/
def isFalsyStr : Option String → Bool
  | none => true
  | some s => s = ""

/-- Embeds the result-list extraction of the success branch (index.tsx lines
119-122): `Array.isArray(data?.data?.list) ? data.data.list :
(data?.data?.extrinsics ?? [])`. -/
def extractList (data : Json) : Json :=
  let l := jget (jget data "data") "list"
  if l.isArr then l
  else
    match jget (jget data "data") "extrinsics" with
    | Json.null => Json.arr []
    | e => e

/-- The `setItems` calls performed by the try/catch of the effect (index.tsx
lines 101-126): lines 115-117 on a non-ok response, lines 118-122 on
success, lines 124-126 when an exception was thrown and caught. -/
def tryBlockItems : FetchOutcome → List Json
  | FetchOutcome.httpError _ _ => [Json.arr []]
  | FetchOutcome.success body => [extractList body]
  | FetchOutcome.thrown => [Json.arr []]

/-- Embeds one run of the fetch effect (index.tsx lines 92-131): nothing when
the panel is closed; clear items and stop loading without a network call when
the display address is falsy; otherwise `setLoading(true)`, one network
call whose branches are `tryBlockItems`, and `setLoading(false)` in the
`finally` block. -/
def activityFetchEffect (opn : Bool) (address : Option String)
    (outcome : FetchOutcome) : EffectResult :=
  if !opn then ⟨[], [], false⟩
  else if isFalsyStr address then ⟨[Json.arr []], [false], false⟩
  else ⟨tryBlockItems outcome, [true] ++ [false], true⟩

/-- The JSON request body of the outbound POST (index.tsx line 112):
`{ row: 10, page: 0, address }`. -/
def requestBody (address : String) : Json :=
  Json.obj [("row", Json.num 10), ("page", Json.num 0), ("address", Json.str address)]

/-- The value held by the `items` state after a run of the effect: the last
`setItems` argument, or the previous value if the run set nothing. -/
def itemsAfter (r : EffectResult) (prev : Json) : Json :=
  r.setItemsCalls.getLast?.getD prev

/-- A raw API record (index.tsx lines 14-23); every field may be absent. -/
structure SubscanExtrinsic where
  extrinsic_index : Option String
  block_num : Option Int
  hash : Option String
  module : Option String
  call : Option String
  success : Option Bool
  fee : Option (String ⊕ Int)
  time : Option Int

/-- JS truthiness of an optional string field (`ex.hash` is truthy exactly
when present and nonempty). -/
def isTruthyStr : Option String → Bool
  | none => false
  | some s => s != ""

/-- Embeds `explorerUrl` (index.tsx lines 150-155); `site` is `cfg.site`
from the enclosing component. `hash` and `extrinsic_index` are tested for
truthiness, `block_num` with `!= null`. -/
def explorerUrl (site : String) (ex : SubscanExtrinsic) : String :=
  if isTruthyStr ex.hash then site ++ "/extrinsic/" ++ ex.hash.getD ""
  else if isTruthyStr ex.extrinsic_index then site ++ "/extrinsic/" ++ ex.extrinsic_index.getD ""
  else
    match ex.block_num with
    | some b => site ++ "/block/" ++ toString b
    | none => site

/-- JS `s.slice(-n)` for a string modelled as its characters: the last `n`
characters, except that `slice(-0)` is the whole string. -/
def sliceLast (s : List Char) (n : Nat) : List Char :=
  if n = 0 then s else s.drop (s.length - n)

/-- Embeds `short` (index.tsx lines 133-134) on strings modelled as their
character sequences: `!s ? '—' : s.length > n * 2 ?
s.slice(0, n) + '…' + s.slice(-n) : s` (the JS default width is `n = 8`;
every use below passes it explicitly). -/
def short (s : Option (List Char)) (n : Nat) : List Char :=
  match s with
  | none => ['—']
  | some s =>
    if s = [] then ['—']
    else if s.length > n * 2 then s.take n ++ ['…'] ++ sliceLast s n
    else s

/-- Unfolding equation for `short` on a present string. -/
theorem short_some (l : List Char) (n : Nat) :
    short (some l) n =
      if l = [] then ['—']
      else if l.length > n * 2 then l.take n ++ ['…'] ++ sliceLast l n
      else l := rfl

/-- A selected account whose raw address the encoder rejects. -/
def malformedAccount : Account := ⟨"not-an-address!"⟩

/-- C1: the spec requires that when the address re-encoding step fails, the
display-address derivation degrades to "no address" (`Except.ok none`)
instead of letting the failure propagate; the `address` useMemo has no
try/catch, so on a malformed raw address the encoding failure propagates
out of the derivation (`Except.error`) and would crash rendering. The spec
is the stated intent ("must degrade to no address rather than crash"); the
code contradicts it. -/
theorem deriveAddress_propagates_encoding_failure :
    deriveAddress encodeAddressModel (some malformedAccount) 2 =
      Except.error "Decoding failed" ∧
    deriveAddress encodeAddressModel (some malformedAccount) 2 ≠ Except.ok none :=
  ⟨rfl, fun h => Except.noConfusion h⟩

/-- A response body in which neither `data.list` nor `data.extrinsics` is
array-shaped, while `data.extrinsics` is present (non-null). -/
def nonArrayBody : Json :=
  Json.obj [("data", Json.obj [("list", Json.str "x"), ("extrinsics", Json.str "oops")])]

/-- C2 counterexample: on a body where neither `data.list` nor
`data.extrinsics` is array-shaped, the claim predicts the empty list, but
the extraction stores the non-array `data.extrinsics` value unchanged
(the code checks `Array.isArray` only for `data.list`; `data.extrinsics`
is guarded only by `?? []`, i.e. against null/undefined). -/
theorem extractList_nonarray_extrinsics_cex :
    (jget (jget nonArrayBody "data") "list").isArr = false ∧
    (jget (jget nonArrayBody "data") "extrinsics").isArr = false ∧
    extractList nonArrayBody = Json.str "oops" ∧
    extractList nonArrayBody ≠ Json.arr [] :=
  ⟨rfl, rfl, rfl, fun h => Json.noConfusion h⟩

/-- C2 (amended): if `data.list` is an array it is used; otherwise
`data.extrinsics` is used whenever it is non-null (whether or not it is
array-shaped); the empty list is stored exactly when `data.list` is not an
array and `data.extrinsics` is null/absent. -/
theorem extractList_spec (body : Json) :
    ((jget (jget body "data") "list").isArr = true →
      extractList body = jget (jget body "data") "list") ∧
    ((jget (jget body "data") "list").isArr = false →
      jget (jget body "data") "extrinsics" ≠ Json.null →
      extractList body = jget (jget body "data") "extrinsics") ∧
    ((jget (jget body "data") "list").isArr = false →
      jget (jget body "data") "extrinsics" = Json.null →
      extractList body = Json.arr []) := by
  refine ⟨fun h1 => ?_, fun h1 h2 => ?_, fun h1 h2 => ?_⟩
  · simp [extractList, h1]
  · cases hE : jget (jget body "data") "extrinsics" <;> simp_all [extractList, h1]
  · simp only [extractList, h1, Bool.false_eq_true, if_false, h2]

/-- Witness for C2's amended theorem at concrete bodies: an array-shaped
`data.list` is used as-is, and a non-null `data.extrinsics` is used when
`data.list` is not an array. -/
theorem extractList_spec_witness :
    extractList (Json.obj [("data", Json.obj [("list", Json.arr [Json.num 1])])]) =
      Json.arr [Json.num 1] ∧
    extractList (Json.obj [("data", Json.obj [("extrinsics", Json.arr [Json.num 2])])]) =
      Json.arr [Json.num 2] :=
  ⟨(extractList_spec _).1 rfl, (extractList_spec _).2.1 rfl (fun h => Json.noConfusion h)⟩

/-- C3: the network configuration resolver is total and agrees with the
spec-worded resolver (substring match on the lower-cased identifier, fixed
priority kusa → west → pase → default Polkadot); a non-empty string input
is normalized by lower-casing, and missing input normalizes to "polkadot"
(hence resolves to the default configuration). -/
theorem coretimeSubscanFor_matches_resolverSpec :
    (∀ n : NetworkVal, coretimeSubscanFor n = resolverSpec (normalizeNetworkName n)) ∧
    (∀ s : String, s ≠ "" → normalizeNetworkName (NetworkVal.str s) = toLowerStr s) ∧
    normalizeNetworkName NetworkVal.missing = "polkadot" := by
  refine ⟨fun n => rfl, fun s hs => ?_, rfl⟩
  simp [normalizeNetworkName, hs]

/-- Witness for C3 at concrete inputs: a mixed-case "Kusama"-like identifier
is lower-cased and resolves to the Kusama configuration. -/
theorem coretimeSubscanFor_matches_resolverSpec_witness :
    coretimeSubscanFor (NetworkVal.str "KusamaNet") = resolverSpec "kusamanet" ∧
    normalizeNetworkName (NetworkVal.str "KusamaNet") = toLowerStr "KusamaNet" ∧
    resolverSpec "kusamanet" = kusamaCoretimeCfg :=
  ⟨(coretimeSubscanFor_matches_resolverSpec.1 (NetworkVal.str "KusamaNet")).trans (by decide),
   coretimeSubscanFor_matches_resolverSpec.2.1 "KusamaNet" (by decide),
   by decide⟩

/-- C6: for every run of the effect with the panel open and a present
(non-empty) display address, whichever of the three outcomes occurs (HTTP
success, non-success status, thrown exception), `setLoading(false)` is
called exactly once, as the last loading update of the run. -/
theorem loading_reset_exactly_once (address : String) (outcome : FetchOutcome)
    (h : address ≠ "") :
    (activityFetchEffect true (some address) outcome).setLoadingCalls.count false = 1 ∧
    (activityFetchEffect true (some address) outcome).setLoadingCalls.getLast? = some false := by
  have hf : isFalsyStr (some address) = false := by simp [isFalsyStr, h]
  simp [activityFetchEffect, hf]

/-- Witness for C6 at a concrete address and the thrown-exception outcome. -/
theorem loading_reset_exactly_once_witness :
    ("5FAddr" ≠ "") ∧
    (activityFetchEffect true (some "5FAddr") FetchOutcome.thrown).setLoadingCalls.count false
      = 1 :=
  ⟨by decide, (loading_reset_exactly_once "5FAddr" FetchOutcome.thrown (by decide)).1⟩

/-- C7: with the panel open and no display address, the effect clears the
result list (`setItems([])`), sets loading to false, and performs no
network call, whatever outcome a request would have had. -/
theorem noAddress_clears_and_skips_network (outcome : FetchOutcome) :
    (activityFetchEffect true none outcome).setItemsCalls = [Json.arr []] ∧
    (activityFetchEffect true none outcome).setLoadingCalls = [false] ∧
    (activityFetchEffect true none outcome).networkCall = false :=
  ⟨rfl, rfl, rfl⟩

/-- C4 counterexample: the empty string is a defined string of length at
most 16, yet `short` returns the em dash placeholder instead of returning
it unchanged (JS `!s` is true for the empty string, not only for
`undefined`). -/
theorem short_empty_string_cex :
    short (some []) 8 = ['—'] ∧ short (some []) 8 ≠ ([] : List Char) := by
  constructor
  · rfl
  · decide

/-- C4 (amended): with the default width 8, `undefined` maps to the em dash
placeholder; every defined *non-empty* string of length at most 16 is
returned unchanged (the empty string instead maps to the placeholder); and
every string longer than 16 characters becomes its first 8 characters, an
ellipsis, then its last 8 characters. -/
theorem short_default_width_spec (s : List Char) :
    short none 8 = ['—'] ∧
    (s ≠ [] → s.length ≤ 16 → short (some s) 8 = s) ∧
    (s.length > 16 → short (some s) 8 = s.take 8 ++ ['…'] ++ s.drop (s.length - 8)) := by
  refine ⟨rfl, fun h1 h2 => ?_, fun h => ?_⟩
  · rw [short_some, if_neg h1, if_neg (by omega)]
  · have h1 : s ≠ [] := by
      intro hc
      rw [hc] at h
      simp at h
    rw [short_some, if_neg h1, if_pos (by omega)]
    simp only [sliceLast]
    rw [if_neg (by omega)]

/-- Witness for C4's amended theorem at the spec's concrete example string
(22 characters long). -/
theorem short_default_width_spec_witness :
    ("0x1234567890abcdef1234".data.length > 16) ∧
    short (some "0x1234567890abcdef1234".data) 8 = "0x123456…cdef1234".data :=
  ⟨by decide,
    ((short_default_width_spec "0x1234567890abcdef1234".data).2.2 (by decide)).trans (by decide)⟩

/-- A successful response whose `data.list` carries eleven records. -/
def bigListBody : Json :=
  Json.obj [("data", Json.obj [("list", Json.arr (List.replicate 11 Json.null))])]

/-- C5 counterexample: the fetch path stores the fetched list wholesale
without truncating it, so a successful response carrying eleven records
leaves eleven records in the stored result list, contradicting "it never
holds more than ten records" (the bound relies on the server honoring the
requested page size, not on this code). -/
theorem items_can_exceed_ten_cex :
    jsonArrLen (itemsAfter
      (activityFetchEffect true (some "addr1") (FetchOutcome.success bigListBody))
      (Json.arr [])) = 11 ∧
    ¬ (jsonArrLen (itemsAfter
      (activityFetchEffect true (some "addr1") (FetchOutcome.success bigListBody))
      (Json.arr [])) ≤ 10) := by
  constructor
  · rfl
  · decide

/-- C5 (amended): the stored result list is replaced wholesale by the
extracted fetched list on each successful fetch, and cleared on a non-ok
response, on a thrown exception, and when no address is available; the
request asks the server for at most ten rows (`row: 10`), but the client
performs no truncation of the response. -/
theorem items_last_fetch_wins (addr : String) (status : Nat) (txt : String)
    (body prev : Json) (h : addr ≠ "") :
    itemsAfter (activityFetchEffect true (some addr) (FetchOutcome.success body)) prev =
      extractList body ∧
    itemsAfter (activityFetchEffect true (some addr) (FetchOutcome.httpError status txt)) prev =
      Json.arr [] ∧
    itemsAfter (activityFetchEffect true (some addr) FetchOutcome.thrown) prev = Json.arr [] ∧
    itemsAfter (activityFetchEffect true none (FetchOutcome.success body)) prev = Json.arr [] ∧
    jget (requestBody addr) "row" = Json.num 10 := by
  have hf : isFalsyStr (some addr) = false := by simp [isFalsyStr, h]
  have hn : isFalsyStr none = true := rfl
  refine ⟨?_, ?_, ?_, ?_, ?_⟩ <;>
    simp [activityFetchEffect, itemsAfter, tryBlockItems, hf, hn, requestBody, jget]

/-- Witness for C5's amended theorem at a concrete address and body. -/
theorem items_last_fetch_wins_witness :
    ("addr2" ≠ "") ∧
    itemsAfter (activityFetchEffect true (some "addr2") (FetchOutcome.success nonArrayBody))
      (Json.arr []) = extractList nonArrayBody :=
  ⟨by decide,
    (items_last_fetch_wins "addr2" 0 "" nonArrayBody (Json.arr []) (by decide)).1⟩

/-- A record whose `hash` field is present but holds the empty string. -/
def emptyHashRecord : SubscanExtrinsic :=
  ⟨none, none, some "", none, none, none, none, none⟩

/-- C8 counterexample: a record whose `hash` is present (but empty) does not
get the hash-based link; its URL falls through to the bare site root, because
`hash` is tested for truthiness, not mere presence. -/
theorem explorerUrl_present_hash_cex :
    emptyHashRecord.hash.isSome = true ∧
    explorerUrl "https://coretime-polkadot.subscan.io" emptyHashRecord =
      "https://coretime-polkadot.subscan.io" ∧
    "https://coretime-polkadot.subscan.io" ≠
      "https://coretime-polkadot.subscan.io" ++ "/extrinsic/" ++
        emptyHashRecord.hash.getD "" := by
  refine ⟨rfl, rfl, ?_⟩
  decide

/-- C8 (amended): the explorer URL builder prefers the hash-based link when
`hash` is present and non-empty (truthy), else the index-based link when
`extrinsic_index` is present and non-empty, else the block-based link when
`block_num` is non-null, else the bare explorer site root, in that fixed
priority. -/
theorem explorerUrl_priority (site : String) (ex : SubscanExtrinsic) :
    (isTruthyStr ex.hash = true →
      explorerUrl site ex = site ++ "/extrinsic/" ++ ex.hash.getD "") ∧
    (isTruthyStr ex.hash = false → isTruthyStr ex.extrinsic_index = true →
      explorerUrl site ex = site ++ "/extrinsic/" ++ ex.extrinsic_index.getD "") ∧
    (isTruthyStr ex.hash = false → isTruthyStr ex.extrinsic_index = false →
      ∀ b : Int, ex.block_num = some b →
        explorerUrl site ex = site ++ "/block/" ++ toString b) ∧
    (isTruthyStr ex.hash = false → isTruthyStr ex.extrinsic_index = false →
      ex.block_num = none → explorerUrl site ex = site) := by
  refine ⟨fun h1 => ?_, fun h1 h2 => ?_, fun h1 h2 b hb => ?_, fun h1 h2 hb => ?_⟩ <;>
    simp [explorerUrl, h1, *]

/-- Witness for C8's amended theorem: a record with a non-empty hash gets
the hash-based link. -/
theorem explorerUrl_priority_witness :
    isTruthyStr (some "0xABC") = true ∧
    explorerUrl "https://s.io" ⟨none, none, some "0xABC", none, none, none, none, none⟩ =
      "https://s.io" ++ "/extrinsic/" ++ "0xABC" :=
  ⟨by decide,
    (explorerUrl_priority "https://s.io"
      ⟨none, none, some "0xABC", none, none, none, none, none⟩).1 (by decide)⟩

/-- C9: for every width `n ≥ 1` and every defined string, `short` is
idempotent: a result of length at most `2n` is returned unchanged again,
and a shortened result (length `2n + 1`) reproduces the same first `n`
characters, ellipsis, and last `n` characters. -/
theorem short_idempotent (s : List Char) (n : Nat) (h : 1 ≤ n) :
    short (some (short (some s) n)) n = short (some s) n := by
  by_cases hs : s = []
  · subst hs
    rw [short_some [] n, if_pos rfl, short_some (['—'] : List Char) n,
      if_neg (by simp), if_neg (by simp only [List.length_singleton]; omega)]
  · by_cases hlen : s.length > n * 2
    · have hn : n ≠ 0 := by omega
      rw [short_some s n, if_neg hs, if_pos hlen]
      simp only [sliceLast]
      rw [if_neg hn]
      set A := s.take n with hA
      set B := s.drop (s.length - n) with hB
      have lenA : A.length = n := by rw [hA, List.length_take]; omega
      have lenB : B.length = n := by rw [hB, List.length_drop]; omega
      have lenR : (A ++ ['…'] ++ B).length = 2 * n + 1 := by
        simp only [List.length_append, List.length_singleton, lenA, lenB]; omega
      have hRne : A ++ ['…'] ++ B ≠ [] := by
        intro hc
        have := congrArg List.length hc
        rw [lenR] at this
        simp at this
      rw [short_some, if_neg hRne,
        if_pos (show (A ++ ['…'] ++ B).length > n * 2 by rw [lenR]; omega)]
      have htake : (A ++ ['…'] ++ B).take n = A := by
        rw [List.append_assoc, ← lenA, List.take_left]
      have hdrop : sliceLast (A ++ ['…'] ++ B) n = B := by
        simp only [sliceLast]
        rw [if_neg hn, lenR]
        have h2 : 2 * n + 1 - n = n + 1 := by omega
        have hlen' : (A ++ ['…']).length = n + 1 := by
          rw [List.length_append, lenA, List.length_singleton]
        rw [h2, ← hlen', List.drop_left]
      rw [htake, hdrop]
    · rw [short_some s n, if_neg hs, if_neg hlen, short_some s n, if_neg hs, if_neg hlen]

/-- Witness for C9 at a concrete string and width. -/
theorem short_idempotent_witness :
    (1 ≤ 2) ∧
    short (some (short (some "abcdefgh".data) 2)) 2 = short (some "abcdefgh".data) 2 :=
  ⟨by decide, short_idempotent "abcdefgh".data 2 (by decide)⟩

/-- C10: the URL builder distinguishes falsy from absent per field: on a
record whose `hash` and `extrinsic_index` are the (present but falsy) empty
string and whose `block_num` is 0, the hash and index links are skipped and
the block-based link for block 0 is returned, for every site prefix. -/
theorem explorerUrl_falsy_fields_fall_to_block (site : String) :
    explorerUrl site ⟨some "", some 0, some "", none, none, none, none, none⟩ =
      site ++ "/block/" ++ "0" := rfl
